import Mathlib

/-
Verification development for the transport/handshake layer in src/net.rs
(steam-vent). The Rust code is shallowly embedded: byte streams are
lists of Nat (each element a byte value), machine integers are Nat or Int
with explicit reductions modulo 2 ^ 32 or 2 ^ 64 where the code casts,
and fallible operations return Except or Option. Rust panics (slice
indexing out of range, the final unconditional abort in connect) are
modelled by explicit panic outcomes.
-/

/-! Little-endian byte encoding and decoding helpers.  These model
the byteorder little-endian writes, i32::from_le_bytes and the binread
little-endian field reads used throughout src/net.rs. -/

/-- Value of a little-endian byte list (each entry reduced to a byte). -/
def leNat : List Nat → Nat
  | [] => 0
  | b :: rest => b % 256 + 256 * leNat rest

/-- The k little-endian bytes of n, dropping bits beyond 256 ^ k. -/
def natToLeBytes : Nat → Nat → List Nat
  | 0, _ => []
  | k + 1, n => n % 256 :: natToLeBytes k (n / 256)

/-- The 4 little-endian bytes of a u32 value. -/
def u32ToLeBytes (n : Nat) : List Nat := natToLeBytes 4 n

/-- The 8 little-endian bytes of a u64 value. -/
def u64ToLeBytes (n : Nat) : List Nat := natToLeBytes 8 n

/-- Read the first 4 bytes of a list as a little-endian u32. -/
def u32FromLeBytes (bs : List Nat) : Nat := leNat (bs.take 4)

/-- Read the first 8 bytes of a list as a little-endian u64. -/
def u64FromLeBytes (bs : List Nat) : Nat := leNat (bs.take 8)

/-- Interpret the first 4 bytes as a little-endian signed i32
in two complement form, as i32::from_le_bytes does. -/
def i32FromLeBytes (bs : List Nat) : Int :=
  let n := u32FromLeBytes bs
  if n < 2 ^ 31 then (n : Int) else (n : Int) - 2 ^ 32

/-- The 4 little-endian bytes of an i32 value in two complement form,
as the little-endian write_i32 produces. -/
def i32ToLeBytes (v : Int) : List Nat := u32ToLeBytes (v % 2 ^ 32).toNat

theorem natToLeBytes_length (k n : Nat) : (natToLeBytes k n).length = k := by
  induction k generalizing n with
  | zero => rfl
  | succ k ih => simp [natToLeBytes, ih]

theorem u32ToLeBytes_length (n : Nat) : (u32ToLeBytes n).length = 4 :=
  natToLeBytes_length 4 n

theorem u64ToLeBytes_length (n : Nat) : (u64ToLeBytes n).length = 8 :=
  natToLeBytes_length 8 n

theorem i32ToLeBytes_length (v : Int) : (i32ToLeBytes v).length = 4 :=
  natToLeBytes_length 4 _

theorem mod_mul_decomp (n P : Nat) (hP : 0 < P) :
    n % (256 * P) = n % 256 + 256 * (n / 256 % P) := by
  have hb : n % 256 < 256 := Nat.mod_lt n (by norm_num)
  have hm : n / 256 % P < P := Nat.mod_lt _ hP
  have key : n = (n % 256 + 256 * (n / 256 % P)) + 256 * P * (n / 256 / P) := by
    calc n = n % 256 + 256 * (n / 256) := (Nat.mod_add_div n 256).symm
    _ = n % 256 + 256 * (n / 256 % P + P * (n / 256 / P)) := by
        rw [Nat.mod_add_div (n / 256) P]
    _ = (n % 256 + 256 * (n / 256 % P)) + 256 * P * (n / 256 / P) := by ring
  have hA : n % 256 + 256 * (n / 256 % P) < 256 * P := by omega
  conv_lhs => rw [key]
  rw [Nat.add_mul_mod_self_left, Nat.mod_eq_of_lt hA]

theorem leNat_natToLeBytes (k n : Nat) : leNat (natToLeBytes k n) = n % 256 ^ k := by
  induction k generalizing n with
  | zero => simp [natToLeBytes, leNat, Nat.mod_one]
  | succ k ih =>
    have hP : 0 < (256 : Nat) ^ k := pow_pos (by norm_num) k
    have hsplit := mod_mul_decomp n (256 ^ k) hP
    have hpow : (256 : Nat) ^ (k + 1) = 256 * 256 ^ k := by ring
    simp only [natToLeBytes, leNat, ih, hpow]
    omega

theorem u32FromLeBytes_u32ToLeBytes (n : Nat) :
    u32FromLeBytes (u32ToLeBytes n) = n % 2 ^ 32 := by
  have hlen : (u32ToLeBytes n).length = 4 := u32ToLeBytes_length n
  have : (u32ToLeBytes n).take 4 = u32ToLeBytes n := by
    rw [← hlen, List.take_length]
  rw [u32FromLeBytes, this, u32ToLeBytes, leNat_natToLeBytes]
  norm_num

/-! The external collaborators of src/net.rs.  The kind table, the
session-key primitive and the CRC-32 primitive live in sibling crates
of the repository (steam_vent_proto, steam_vent_crypto, crc) whose
sources are not part of src/, so they are modelled from the spec. -/

/-- Modelled from the spec: the externally supplied enumeration table
mapping numeric message-kind codes to symbolic names
(steam_vent_proto::enums_clientserver::EMsg).  Only the three handshake
kinds named by the spec are modelled; their numeric values are the
positive table keys used by the external crate. -/
inductive EMsg
  | k_EMsgChannelEncryptRequest
  | k_EMsgChannelEncryptResponse
  | k_EMsgChannelEncryptResult
deriving DecidableEq

/-- Modelled from the spec: the numeric value of a kind in the table
(ProtobufEnum::value).  Table keys are positive; the sign bit is a
transport-level flag added on top of them. -/
def EMsg.value : EMsg → Int
  | EMsg.k_EMsgChannelEncryptRequest => 1303
  | EMsg.k_EMsgChannelEncryptResponse => 1304
  | EMsg.k_EMsgChannelEncryptResult => 1305

/-- Modelled from the spec: lookup of a numeric code in the kind table
(EMsg::from_i32), returning none for an unmapped code. -/
def EMsg.from_i32 (code : Int) : Option EMsg :=
  if code = 1303 then some EMsg.k_EMsgChannelEncryptRequest
  else if code = 1304 then some EMsg.k_EMsgChannelEncryptResponse
  else if code = 1305 then some EMsg.k_EMsgChannelEncryptResult
  else none

/-- Modelled from the spec: the session key produced by the external
crypto collaborator, a pair of plaintext key material and its
asymmetrically encrypted form for transmission. -/
structure SessionKey where
  plain : List Nat
  encrypted : List Nat

/-- One bit-step of the reflected CRC-32 update. -/
def crc32Round (c : Nat) : Nat :=
  if c % 2 = 1 then (c / 2) ^^^ 0xEDB88320 else c / 2

/-- One byte-step of the reflected CRC-32 update (8 bit-steps). -/
def crc32Byte (c b : Nat) : Nat :=
  crc32Round (crc32Round (crc32Round (crc32Round
    (crc32Round (crc32Round (crc32Round (crc32Round (c ^^^ b % 256))))))))

/-- Modelled from the spec: the CRC-32/IEEE checksum primitive
(crc::crc32::checksum_ieee), reflected, initial value and final xor
0xFFFFFFFF, polynomial 0xEDB88320. -/
def crc32 (data : List Nat) : Nat :=
  (data.foldl crc32Byte 0xFFFFFFFF) ^^^ 0xFFFFFFFF

/-! The data model of src/net.rs. -/

/-- The error enum of src/net.rs lines 15-25.  The IO variant wraps a
stream-level failure (the wrapped io error value is not modelled); the
source names it IO, renamed here for the development. -/
inductive NetworkError
  | IOError
  | InvalidHeader
  | InvalidMessageKind (code : Int)
  | UnexpectedHandshake (reason : String)
deriving DecidableEq

/-- Outcome of a fallible Rust computation that can also panic. -/
inductive ParseResult (α : Type)
  | panic
  | error (e : NetworkError)
  | ok (value : α)
deriving DecidableEq

/-- The fixed 4-byte magic constant b"VT01" (src/net.rs line 43). -/
def MAGIC : List Nat := [0x56, 0x54, 0x30, 0x31]

/-- Decoded view over a frame payload (src/net.rs lines 62-67). -/
structure RawNetMessage where
  kind : EMsg
  is_protobuf : Bool
  data : List Nat
deriving DecidableEq

/-- ChannelEncryptRequestBody (src/net.rs lines 141-148): fixed
40-byte little-endian layout. -/
structure ChannelEncryptRequestBody where
  target_job_id : Nat
  source_job_id : Nat
  protocol : Nat
  «universe» : Nat
  nonce : List Nat
deriving DecidableEq

/-- ChannelEncryptResultBody (src/net.rs lines 150-155): fixed
20-byte little-endian layout. -/
structure ChannelEncryptResultBody where
  target_job_id : Nat
  source_job_id : Nat
  result : Nat
deriving DecidableEq

/-- ClientEncryptResponse (src/net.rs lines 224-229). -/
structure ClientEncryptResponse where
  target_job_id : Nat
  source_job_id : Nat
  protocol : Nat
  encrypted_key : List Nat
deriving DecidableEq

/-! Operations of src/net.rs. -/

/-- RawNetMessage::try_from (src/net.rs lines 69-92).  The leading
4 bytes are taken by the slice expression value[0..4]; on a slice
shorter than 4 bytes that expression aborts with an out-of-range
panic before the TryInto conversion (whose error arm, mapping to
InvalidMessageKind 0, is therefore unreachable).  For 4 or more bytes
the code is read as a little-endian i32, the sign gives is_protobuf,
and the absolute value is looked up in the kind table. -/
def RawNetMessage.try_from (value : List Nat) : ParseResult RawNetMessage :=
  if 4 ≤ value.length then
    match EMsg.from_i32 (Int.ofNat (i32FromLeBytes (value.take 4)).natAbs) with
    | some kind =>
      ParseResult.ok ⟨kind, decide (i32FromLeBytes (value.take 4) < 0), value.drop 4⟩
    | none =>
      ParseResult.error (NetworkError.InvalidMessageKind (i32FromLeBytes (value.take 4)))
  else ParseResult.panic

/-- RawSteamReader::read_buff (src/net.rs lines 100-111) on an
explicit byte stream: read exactly 8 header bytes (stream end is an
IO failure), decode length little-endian and the 4 magic bytes,
validate the magic (src/net.rs lines 52-60), then read exactly length
payload bytes.  Returns the payload and the rest of the stream. -/
def RawSteamReader.read_buff (stream : List Nat) :
    Except NetworkError (List Nat × List Nat) :=
  if 8 ≤ stream.length then
    let length := u32FromLeBytes (stream.take 4)
    let magic := (stream.drop 4).take 4
    if magic = MAGIC then
      let rest := stream.drop 8
      if length ≤ rest.length then
        Except.ok (rest.take length, rest.drop length)
      else Except.error NetworkError.IOError
    else Except.error NetworkError.InvalidHeader
  else Except.error NetworkError.IOError

/-- The I/O calls issued by the writer half. -/
inductive WriteEvent
  | write (bytes : List Nat)
  | flush
deriving DecidableEq

/-- State of the writer half: the sequence of I/O calls issued. -/
structure RawSteamWriter where
  events : List WriteEvent
deriving DecidableEq

/-- The byte sequence RawSteamWriter::write_buff builds in its local
Vec (src/net.rs lines 128-131): the payload length cast to u32,
little-endian, then the magic, then the payload. -/
def frameBytes (data : List Nat) : List Nat :=
  u32ToLeBytes (data.length % 2 ^ 32) ++ (MAGIC ++ data)

/-- RawSteamWriter::write_buff (src/net.rs lines 123-138): build the
full frame in one buffer, issue a single write of it, then flush. -/
def RawSteamWriter.write_buff (w : RawSteamWriter) (data : List Nat) :
    RawSteamWriter :=
  { events := w.events ++ [WriteEvent.write (frameBytes data), WriteEvent.flush] }

/-- Bytes that reach the stream: concatenation of all write events. -/
def bytesWritten (w : RawSteamWriter) : List Nat :=
  w.events.foldl (fun acc e => match e with
    | WriteEvent.write bs => acc ++ bs
    | WriteEvent.flush => acc) []

/-- binread little-endian decode of ChannelEncryptRequestBody from a
byte slice (used at src/net.rs lines 189-191): reads 8 + 8 + 4 + 4 + 16
bytes in field order; fails when fewer than 40 bytes are available,
ignores any trailing bytes. -/
def ChannelEncryptRequestBody.read_le (bs : List Nat) :
    Option ChannelEncryptRequestBody :=
  if 40 ≤ bs.length then
    some ⟨u64FromLeBytes bs, u64FromLeBytes (bs.drop 8),
      u32FromLeBytes (bs.drop 16), u32FromLeBytes (bs.drop 20),
      (bs.drop 24).take 16⟩
  else none

/-- binread little-endian decode of ChannelEncryptResultBody from a
byte slice (used at src/net.rs lines 215-217): reads 8 + 8 + 4 bytes in
field order; fails when fewer than 20 bytes are available, ignores any
trailing bytes. -/
def ChannelEncryptResultBody.read_le (bs : List Nat) :
    Option ChannelEncryptResultBody :=
  if 20 ≤ bs.length then
    some ⟨u64FromLeBytes bs, u64FromLeBytes (bs.drop 8),
      u32FromLeBytes (bs.drop 16)⟩
  else none

/-- ClientEncryptResponse::encode (src/net.rs lines 231-244): the
positive kind value as little-endian i32, both job ids, the protocol,
the encrypted key length cast to u32, the encrypted key bytes, the
CRC-32/IEEE of the encrypted key bytes, and a reserved zero u32. -/
def ClientEncryptResponse.encode (r : ClientEncryptResponse) : List Nat :=
  i32ToLeBytes EMsg.k_EMsgChannelEncryptResponse.value
    ++ (u64ToLeBytes r.target_job_id
    ++ (u64ToLeBytes r.source_job_id
    ++ (u32ToLeBytes r.protocol
    ++ (u32ToLeBytes (r.encrypted_key.length % 2 ^ 32)
    ++ (r.encrypted_key
    ++ (u32ToLeBytes (crc32 r.encrypted_key)
    ++ u32ToLeBytes 0))))))

/-- Outcome of the connect handshake (src/net.rs lines 167-222).
The established variant models returning a connection holding the
plaintext session key; the source never produces it because it ends
in an unconditional abort. -/
inductive ConnectOutcome
  | established (key : List Nat)
  | err (e : NetworkError)
  | panicked
deriving DecidableEq

/-- Second phase of connect (src/net.rs lines 206-222): read one
frame, require the channel-encrypt-result kind, decode the body, then
dbg-print it and abort unconditionally via the panic macro. -/
def awaitEncryptResult (stream : List Nat) (events : List WriteEvent) :
    ConnectOutcome × List WriteEvent :=
  match RawSteamReader.read_buff stream with
  | Except.error e => (ConnectOutcome.err e, events)
  | Except.ok (p2, _) =>
    match RawNetMessage.try_from p2 with
    | ParseResult.panic => (ConnectOutcome.panicked, events)
    | ParseResult.error e => (ConnectOutcome.err e, events)
    | ParseResult.ok m2 =>
      if m2.kind = EMsg.k_EMsgChannelEncryptResult then
        match ChannelEncryptResultBody.read_le m2.data with
        | none => (ConnectOutcome.err
            (NetworkError.UnexpectedHandshake "Invalid encrypt result body"), events)
        | some _ => (ConnectOutcome.panicked, events)
      else (ConnectOutcome.err
        (NetworkError.UnexpectedHandshake "Expected encrypt result"), events)

/-- connect (src/net.rs lines 167-222) over an explicit incoming byte
stream, with the external session-key primitive passed as a function
(generate_session_key, modelled from the spec as an injectable
collaborator).  Returns the outcome and the write events issued. -/
def connect (genKey : List Nat → SessionKey) (stream : List Nat) :
    ConnectOutcome × List WriteEvent :=
  match RawSteamReader.read_buff stream with
  | Except.error e => (ConnectOutcome.err e, [])
  | Except.ok (p1, s1) =>
    match RawNetMessage.try_from p1 with
    | ParseResult.panic => (ConnectOutcome.panicked, [])
    | ParseResult.error e => (ConnectOutcome.err e, [])
    | ParseResult.ok m1 =>
      if m1.kind = EMsg.k_EMsgChannelEncryptRequest then
        if m1.data.length ≠ 40 then
          (ConnectOutcome.err
            (NetworkError.UnexpectedHandshake "Malformed encrypt request"), [])
        else
          match ChannelEncryptRequestBody.read_le m1.data with
          | none => (ConnectOutcome.err
              (NetworkError.UnexpectedHandshake "Invalid encrypt request body"), [])
          | some req =>
            let key := genKey req.nonce
            let response : ClientEncryptResponse :=
              ⟨2 ^ 64 - 1, 2 ^ 64 - 1, req.protocol, key.encrypted⟩
            let w := RawSteamWriter.write_buff ⟨[]⟩ response.encode
            awaitEncryptResult s1 w.events
      else (ConnectOutcome.err
        (NetworkError.UnexpectedHandshake "Expected encrypt request"), [])

/-! Shared lemmas about the frame codec and the kind resolver. -/

theorem bytesWritten_write_buff (data : List Nat) :
    bytesWritten (RawSteamWriter.write_buff ⟨[]⟩ data) = frameBytes data := by
  simp [bytesWritten, RawSteamWriter.write_buff]

theorem read_buff_frame_mod (p rest : List Nat) :
    RawSteamReader.read_buff (frameBytes p ++ rest)
      = Except.ok ((p ++ rest).take (p.length % 2 ^ 32),
          (p ++ rest).drop (p.length % 2 ^ 32)) := by
  have hlen4 : (u32ToLeBytes (p.length % 2 ^ 32)).length = 4 := u32ToLeBytes_length _
  have hstream : frameBytes p ++ rest
      = u32ToLeBytes (p.length % 2 ^ 32) ++ (MAGIC ++ (p ++ rest)) := by
    simp [frameBytes, List.append_assoc]
  have htake4 : (u32ToLeBytes (p.length % 2 ^ 32) ++ (MAGIC ++ (p ++ rest))).take 4
      = u32ToLeBytes (p.length % 2 ^ 32) := List.take_left' hlen4
  have hdrop4 : (u32ToLeBytes (p.length % 2 ^ 32) ++ (MAGIC ++ (p ++ rest))).drop 4
      = MAGIC ++ (p ++ rest) := List.drop_left' hlen4
  have hmagic : (MAGIC ++ (p ++ rest)).take 4 = MAGIC := List.take_left' rfl
  have hdrop8 : (u32ToLeBytes (p.length % 2 ^ 32) ++ (MAGIC ++ (p ++ rest))).drop 8
      = p ++ rest := by
    have h8 : (8 : Nat) = 4 + 4 := by norm_num
    rw [h8, ← List.drop_drop, hdrop4, List.drop_left' (by rfl : MAGIC.length = 4)]
  have hlenstream : 8 ≤ (u32ToLeBytes (p.length % 2 ^ 32) ++ (MAGIC ++ (p ++ rest))).length := by
    simp only [List.length_append, u32ToLeBytes_length, MAGIC, List.length_cons,
      List.length_nil]
    omega
  have hdecode : u32FromLeBytes (u32ToLeBytes (p.length % 2 ^ 32)) = p.length % 2 ^ 32 := by
    rw [u32FromLeBytes_u32ToLeBytes, Nat.mod_mod_of_dvd _ dvd_rfl]
  have hle : p.length % 2 ^ 32 ≤ (p ++ rest).length := by
    have := Nat.mod_le p.length (2 ^ 32)
    simp only [List.length_append]
    omega
  rw [hstream, RawSteamReader.read_buff, if_pos hlenstream]
  simp only [htake4, hdrop4, hmagic, hdrop8, hdecode]
  rw [if_true, if_pos hle]

theorem read_buff_frame (p rest : List Nat) (h : p.length < 2 ^ 32) :
    RawSteamReader.read_buff (frameBytes p ++ rest) = Except.ok (p, rest) := by
  rw [read_buff_frame_mod, Nat.mod_eq_of_lt h, List.take_left, List.drop_left]

theorem i32_roundtrip (v : Int) (h1 : -(2 ^ 31) ≤ v) (h2 : v < 2 ^ 31) :
    i32FromLeBytes (i32ToLeBytes v) = v := by
  rw [i32ToLeBytes, i32FromLeBytes]
  simp only [u32FromLeBytes_u32ToLeBytes]
  split <;> omega

theorem try_from_concat (v : Int) (h1 : -(2 ^ 31) ≤ v) (h2 : v < 2 ^ 31)
    (body : List Nat) :
    RawNetMessage.try_from (i32ToLeBytes v ++ body) =
      (match EMsg.from_i32 (Int.ofNat v.natAbs) with
       | some kind => ParseResult.ok ⟨kind, decide (v < 0), body⟩
       | none => ParseResult.error (NetworkError.InvalidMessageKind v)) := by
  have hlen4 : (i32ToLeBytes v).length = 4 := i32ToLeBytes_length v
  have hge : 4 ≤ (i32ToLeBytes v ++ body).length := by
    simp [List.length_append, hlen4]
  have htake : (i32ToLeBytes v ++ body).take 4 = i32ToLeBytes v := List.take_left' hlen4
  have hdrop : (i32ToLeBytes v ++ body).drop 4 = body := List.drop_left' hlen4
  rw [RawNetMessage.try_from, if_pos hge]
  simp only [htake, hdrop, i32_roundtrip v h1 h2]

theorem awaitEncryptResult_snd (s : List Nat) (e : List WriteEvent) :
    (awaitEncryptResult s e).2 = e := by
  unfold awaitEncryptResult
  repeat' split
  all_goals rfl

/-! Claim theorems. -/

/-- C1 counterexample: at a concrete response the first 4 encoded
bytes, read as little-endian i32, are not the negative of the channel
encrypt response kind code. -/
theorem c1_counterexample :
    ¬ (i32FromLeBytes ((ClientEncryptResponse.encode ⟨2 ^ 64 - 1, 2 ^ 64 - 1, 1, []⟩).take 4)
        = -(EMsg.value EMsg.k_EMsgChannelEncryptResponse)) := by decide

/-- C1 (amended): for every encoded ClientEncryptResponse, the first 4
payload bytes, interpreted as a little-endian i32, equal the channel
encrypt response kind code itself, which is positive: the encoder
writes the plain table value, not its negative. -/
theorem c1_encode_leading_kind_code (r : ClientEncryptResponse) :
    i32FromLeBytes ((ClientEncryptResponse.encode r).take 4)
      = EMsg.value EMsg.k_EMsgChannelEncryptResponse
    ∧ 0 < EMsg.value EMsg.k_EMsgChannelEncryptResponse := by
  constructor
  · have hlen4 : (i32ToLeBytes (EMsg.value EMsg.k_EMsgChannelEncryptResponse)).length = 4 :=
      i32ToLeBytes_length _
    rw [ClientEncryptResponse.encode, List.take_left' hlen4]
    rw [i32_roundtrip _ (by norm_num [EMsg.value]) (by norm_num [EMsg.value])]
  · decide

/-- C4: every input slice shorter than 4 bytes makes
RawNetMessage::try_from abort with a slice-index panic (the
out-of-range expression value[0..4] runs before any error can be
returned), so the claimed malformed-kind error is never produced. -/
theorem c4_short_payload_panics (bs : List Nat) (h : bs.length < 4) :
    RawNetMessage.try_from bs = ParseResult.panic := by
  rw [RawNetMessage.try_from, if_neg (by omega)]

/-- C4 witness at the empty payload. -/
theorem c4_witness :
    ([] : List Nat).length < 4
    ∧ RawNetMessage.try_from [] = ParseResult.panic :=
  ⟨by decide, c4_short_payload_panics [] (by decide)⟩

/-- C5: for a payload of 4 or more bytes whose leading little-endian
i32 is c, a successful resolution has is_protobuf equal to c < 0, a
kind that is the table entry at the absolute value of c, and the
remaining bytes as the body; when the absolute value is absent from
the table, resolution fails with InvalidMessageKind carrying the
original signed c. -/
theorem c5_kind_resolution (value : List Nat) (h : 4 ≤ value.length) :
    (∀ m : RawNetMessage, RawNetMessage.try_from value = ParseResult.ok m →
        m.is_protobuf = decide (i32FromLeBytes (value.take 4) < 0)
        ∧ EMsg.from_i32 (Int.ofNat (i32FromLeBytes (value.take 4)).natAbs) = some m.kind
        ∧ m.data = value.drop 4
        ∧ m.data.length = value.length - 4)
    ∧ (EMsg.from_i32 (Int.ofNat (i32FromLeBytes (value.take 4)).natAbs) = none →
        RawNetMessage.try_from value
          = ParseResult.error (NetworkError.InvalidMessageKind (i32FromLeBytes (value.take 4)))) := by
  constructor
  · intro m hm
    rw [RawNetMessage.try_from, if_pos h] at hm
    cases hk : EMsg.from_i32 (Int.ofNat (i32FromLeBytes (value.take 4)).natAbs) with
    | none =>
      rw [hk] at hm
      exact absurd hm (by simp)
    | some kind =>
      rw [hk] at hm
      simp only [ParseResult.ok.injEq] at hm
      cases hm
      exact ⟨rfl, rfl, rfl, by simp [List.length_drop]⟩
  · intro hnone
    rw [RawNetMessage.try_from, if_pos h, hnone]

/-- C5 witness: a 5-byte payload with leading code -1305 resolves to
the channel encrypt result kind with the protobuf flag set and a
1-byte body. -/
theorem c5_witness :
    4 ≤ ([231, 250, 255, 255, 7] : List Nat).length
    ∧ ((∀ m : RawNetMessage,
          RawNetMessage.try_from [231, 250, 255, 255, 7] = ParseResult.ok m →
          m.is_protobuf = decide (i32FromLeBytes (([231, 250, 255, 255, 7] : List Nat).take 4) < 0)
          ∧ EMsg.from_i32 (Int.ofNat (i32FromLeBytes (([231, 250, 255, 255, 7] : List Nat).take 4)).natAbs) = some m.kind
          ∧ m.data = ([231, 250, 255, 255, 7] : List Nat).drop 4
          ∧ m.data.length = ([231, 250, 255, 255, 7] : List Nat).length - 4)
      ∧ (EMsg.from_i32 (Int.ofNat (i32FromLeBytes (([231, 250, 255, 255, 7] : List Nat).take 4)).natAbs) = none →
          RawNetMessage.try_from [231, 250, 255, 255, 7]
            = ParseResult.error (NetworkError.InvalidMessageKind (i32FromLeBytes (([231, 250, 255, 255, 7] : List Nat).take 4))))) :=
  ⟨by decide, c5_kind_resolution [231, 250, 255, 255, 7] (by decide)⟩

/-- C8: write_buff issues, after the events already recorded, exactly
one write of a single contiguous sequence, the little-endian u32 of
the payload length, then the magic, then the payload, of total length
8 + payload length, followed by one flush. -/
theorem c8_write_buff_layout (w : RawSteamWriter) (data : List Nat) :
    (RawSteamWriter.write_buff w data).events
      = w.events ++ [WriteEvent.write (u32ToLeBytes (data.length % 2 ^ 32) ++ (MAGIC ++ data)),
          WriteEvent.flush]
    ∧ (u32ToLeBytes (data.length % 2 ^ 32) ++ (MAGIC ++ data)).length = 8 + data.length := by
  refine ⟨rfl, ?_⟩
  simp only [List.length_append, u32ToLeBytes_length, MAGIC, List.length_cons, List.length_nil]
  omega

/-- C10: for a payload of 2 ^ 32 bytes or more, the length field
write_buff emits is the payload length reduced modulo 2 ^ 32, which
differs from the true payload length, so the header no longer
describes the payload. -/
theorem c10_length_truncation (data : List Nat) (h : 2 ^ 32 ≤ data.length)
    (w : RawSteamWriter) :
    (RawSteamWriter.write_buff w data).events
      = w.events ++ [WriteEvent.write (u32ToLeBytes (data.length % 2 ^ 32) ++ (MAGIC ++ data)),
          WriteEvent.flush]
    ∧ u32FromLeBytes (u32ToLeBytes (data.length % 2 ^ 32)) = data.length % 2 ^ 32
    ∧ data.length % 2 ^ 32 ≠ data.length := by
  refine ⟨rfl, ?_, ?_⟩
  · rw [u32FromLeBytes_u32ToLeBytes, Nat.mod_mod_of_dvd _ dvd_rfl]
  · have hlt := Nat.mod_lt data.length (show 0 < 2 ^ 32 by norm_num)
    omega

/-- C10 witness at a payload of exactly 2 ^ 32 zero bytes. -/
theorem c10_witness :
    2 ^ 32 ≤ (List.replicate (2 ^ 32) (0 : Nat)).length
    ∧ ((RawSteamWriter.write_buff ⟨[]⟩ (List.replicate (2 ^ 32) (0 : Nat))).events
        = [] ++ [WriteEvent.write
            (u32ToLeBytes ((List.replicate (2 ^ 32) (0 : Nat)).length % 2 ^ 32)
              ++ (MAGIC ++ List.replicate (2 ^ 32) (0 : Nat))),
            WriteEvent.flush]
      ∧ u32FromLeBytes (u32ToLeBytes ((List.replicate (2 ^ 32) (0 : Nat)).length % 2 ^ 32))
          = (List.replicate (2 ^ 32) (0 : Nat)).length % 2 ^ 32
      ∧ (List.replicate (2 ^ 32) (0 : Nat)).length % 2 ^ 32
          ≠ (List.replicate (2 ^ 32) (0 : Nat)).length) :=
  ⟨by rw [List.length_replicate], c10_length_truncation _ (by rw [List.length_replicate]) ⟨[]⟩⟩

/-- C7 counterexample: for the 2 ^ 32 byte payload the emitted length
field truncates to 0, so reading the written frame back yields the
empty payload, not the original one. -/
theorem c7_counterexample :
    RawSteamReader.read_buff
        (bytesWritten (RawSteamWriter.write_buff ⟨[]⟩ (List.replicate (2 ^ 32) 0)))
      = Except.ok ([], List.replicate (2 ^ 32) 0)
    ∧ ([] : List Nat) ≠ List.replicate (2 ^ 32) 0 := by
  constructor
  · rw [bytesWritten_write_buff]
    have h := read_buff_frame_mod (List.replicate (2 ^ 32) 0) []
    rw [List.append_nil, List.append_nil] at h
    rw [h, List.length_replicate, Nat.mod_self]
    rw [List.take_zero, List.drop_zero]
  · intro heq
    have hlen := congrArg List.length heq
    rw [List.length_replicate] at hlen
    norm_num at hlen

/-- C7 (amended): for every payload of fewer than 2 ^ 32 bytes,
writing a frame with write_buff and reading it back with read_buff
yields exactly the payload and leaves the rest of the stream, and the
length field in the written header decodes to the payload length. -/
theorem c7_frame_roundtrip (data rest : List Nat) (h : data.length < 2 ^ 32) :
    RawSteamReader.read_buff
        (bytesWritten (RawSteamWriter.write_buff ⟨[]⟩ data) ++ rest)
      = Except.ok (data, rest)
    ∧ u32FromLeBytes ((bytesWritten (RawSteamWriter.write_buff ⟨[]⟩ data) ++ rest).take 4)
      = data.length := by
  rw [bytesWritten_write_buff]
  constructor
  · exact read_buff_frame data rest h
  · have hlen4 : (u32ToLeBytes (data.length % 2 ^ 32)).length = 4 := u32ToLeBytes_length _
    have htake : (frameBytes data ++ rest).take 4 = u32ToLeBytes (data.length % 2 ^ 32) := by
      rw [frameBytes, List.append_assoc]
      exact List.take_left' hlen4
    rw [htake, u32FromLeBytes_u32ToLeBytes, Nat.mod_mod_of_dvd _ dvd_rfl,
      Nat.mod_eq_of_lt h]

/-- C7 witness at payload [1, 2, 3] with a trailing stream [9]. -/
theorem c7_witness :
    ([1, 2, 3] : List Nat).length < 2 ^ 32
    ∧ (RawSteamReader.read_buff
          (bytesWritten (RawSteamWriter.write_buff ⟨[]⟩ [1, 2, 3]) ++ [9])
        = Except.ok ([1, 2, 3], [9])
      ∧ u32FromLeBytes ((bytesWritten (RawSteamWriter.write_buff ⟨[]⟩ [1, 2, 3]) ++ [9]).take 4)
        = ([1, 2, 3] : List Nat).length) :=
  ⟨by norm_num, c7_frame_roundtrip [1, 2, 3] [9] (by norm_num)⟩

/-- C3 counterexample: a 21-byte slice is not the encoded size of
ChannelEncryptResultBody, yet its decode succeeds (binread ignores
trailing bytes), so no UnexpectedHandshake size failure occurs. -/
theorem c3_counterexample :
    (List.replicate 21 (0 : Nat)).length ≠ 20
    ∧ ChannelEncryptResultBody.read_le (List.replicate 21 0) = some ⟨0, 0, 0⟩ := by
  constructor
  · decide
  · decide

/-- C3 (amended): the request body is length-checked exactly: a first
frame resolving to the channel encrypt request kind whose body is not
exactly 40 bytes fails the handshake with UnexpectedHandshake and
nothing is written; the result body has no exact-size check: its
decode succeeds exactly when the slice has at least 20 bytes, trailing
bytes being ignored, and only a slice below 20 bytes fails, which
connect surfaces as the UnexpectedHandshake invalid encrypt result
body error. -/
theorem c3_body_size_checks :
    (∀ (genKey : List Nat → SessionKey) (p rest : List Nat) (m : RawNetMessage),
        p.length < 2 ^ 32 →
        RawNetMessage.try_from p = ParseResult.ok m →
        m.kind = EMsg.k_EMsgChannelEncryptRequest →
        m.data.length ≠ 40 →
        connect genKey (frameBytes p ++ rest)
          = (ConnectOutcome.err (NetworkError.UnexpectedHandshake "Malformed encrypt request"), []))
    ∧ (∀ bs : List Nat, (ChannelEncryptResultBody.read_le bs).isSome ↔ 20 ≤ bs.length)
    ∧ (∀ (genKey : List Nat → SessionKey) (body2 : List Nat),
        body2.length < 20 →
        (connect genKey
            (frameBytes (i32ToLeBytes (EMsg.value EMsg.k_EMsgChannelEncryptRequest)
                ++ List.replicate 40 0)
              ++ frameBytes (i32ToLeBytes (EMsg.value EMsg.k_EMsgChannelEncryptResult)
                ++ body2))).1
          = ConnectOutcome.err
              (NetworkError.UnexpectedHandshake "Invalid encrypt result body")) := by
  refine ⟨?_, ?_, ?_⟩
  · intro genKey p rest m hp hm hk h40
    rw [connect, read_buff_frame p rest hp]
    simp only [hm, hk, h40]
    simp
    exact fun hcontra => absurd hcontra h40
  · intro bs
    by_cases hb : 20 ≤ bs.length
    · simp [ChannelEncryptResultBody.read_le, hb]
    · simp [ChannelEncryptResultBody.read_le, hb]
  · intro genKey body2 hshort
    have hp1 : (i32ToLeBytes (EMsg.value EMsg.k_EMsgChannelEncryptRequest)
        ++ List.replicate 40 0).length < 2 ^ 32 := by
      rw [List.length_append, i32ToLeBytes_length, List.length_replicate]
      norm_num
    have ht1 : RawNetMessage.try_from (i32ToLeBytes (EMsg.value EMsg.k_EMsgChannelEncryptRequest)
        ++ List.replicate 40 0)
        = ParseResult.ok ⟨EMsg.k_EMsgChannelEncryptRequest, false, List.replicate 40 0⟩ := by
      decide
    have hdec1 : ChannelEncryptRequestBody.read_le (List.replicate 40 0)
        = some ⟨0, 0, 0, 0, List.replicate 16 0⟩ := by decide
    have hp2 : (i32ToLeBytes (EMsg.value EMsg.k_EMsgChannelEncryptResult)
        ++ body2).length < 2 ^ 32 := by
      rw [List.length_append, i32ToLeBytes_length]
      omega
    have ht2 : RawNetMessage.try_from (i32ToLeBytes (EMsg.value EMsg.k_EMsgChannelEncryptResult)
        ++ body2)
        = ParseResult.ok ⟨EMsg.k_EMsgChannelEncryptResult, false, body2⟩ := by
      rw [try_from_concat _ (by norm_num [EMsg.value]) (by norm_num [EMsg.value])]
      norm_num [EMsg.value, EMsg.from_i32]
    have hread2 : RawSteamReader.read_buff
        (frameBytes (i32ToLeBytes (EMsg.value EMsg.k_EMsgChannelEncryptResult) ++ body2))
        = Except.ok (i32ToLeBytes (EMsg.value EMsg.k_EMsgChannelEncryptResult) ++ body2, []) := by
      have h := read_buff_frame _ [] hp2
      rwa [List.append_nil] at h
    have hnone : ChannelEncryptResultBody.read_le body2 = none := by
      rw [ChannelEncryptResultBody.read_le, if_neg (by omega)]
    rw [connect, read_buff_frame _ _ hp1]
    simp only [ht1, List.length_replicate, hdec1]
    simp only [awaitEncryptResult, hread2, ht2]
    simp [hnone]

/-- C3 witness: a request-kind first frame with a 1-byte body fails
with the malformed encrypt request error and writes nothing, a
21-byte result body decodes successfully, and an empty result body
after a valid request phase is surfaced by connect as the invalid
encrypt result body error. -/
theorem c3_witness :
    (([23, 5, 0, 0, 9] : List Nat).length < 2 ^ 32
      ∧ RawNetMessage.try_from [23, 5, 0, 0, 9]
          = ParseResult.ok ⟨EMsg.k_EMsgChannelEncryptRequest, false, [9]⟩
      ∧ (⟨EMsg.k_EMsgChannelEncryptRequest, false, [9]⟩ : RawNetMessage).kind
          = EMsg.k_EMsgChannelEncryptRequest
      ∧ (⟨EMsg.k_EMsgChannelEncryptRequest, false, [9]⟩ : RawNetMessage).data.length ≠ 40
      ∧ connect (fun _ => ⟨List.replicate 32 0, [1]⟩) (frameBytes [23, 5, 0, 0, 9] ++ [])
          = (ConnectOutcome.err (NetworkError.UnexpectedHandshake "Malformed encrypt request"), []))
    ∧ ((ChannelEncryptResultBody.read_le (List.replicate 21 0)).isSome ↔
        20 ≤ (List.replicate 21 (0 : Nat)).length)
    ∧ (([] : List Nat).length < 20
      ∧ (connect (fun _ => ⟨List.replicate 32 0, [1]⟩)
            (frameBytes (i32ToLeBytes (EMsg.value EMsg.k_EMsgChannelEncryptRequest)
                ++ List.replicate 40 0)
              ++ frameBytes (i32ToLeBytes (EMsg.value EMsg.k_EMsgChannelEncryptResult)
                ++ []))).1
          = ConnectOutcome.err
              (NetworkError.UnexpectedHandshake "Invalid encrypt result body")) :=
  ⟨⟨by decide, by decide, by decide, by decide,
      c3_body_size_checks.1 (fun _ => ⟨List.replicate 32 0, [1]⟩) [23, 5, 0, 0, 9] []
        ⟨EMsg.k_EMsgChannelEncryptRequest, false, [9]⟩
        (by decide) (by decide) (by decide) (by decide)⟩,
    c3_body_size_checks.2.1 (List.replicate 21 0),
    by decide,
    c3_body_size_checks.2.2 (fun _ => ⟨List.replicate 32 0, [1]⟩) [] (by decide)⟩

/-- C9: when the first frame of the handshake resolves to any kind
other than channel encrypt request, connect fails with
UnexpectedHandshake and the writer issues no events at all. -/
theorem c9_wrong_kind_no_write (genKey : List Nat → SessionKey) (p rest : List Nat)
    (m : RawNetMessage) (hp : p.length < 2 ^ 32)
    (hm : RawNetMessage.try_from p = ParseResult.ok m)
    (hk : m.kind ≠ EMsg.k_EMsgChannelEncryptRequest) :
    connect genKey (frameBytes p ++ rest)
      = (ConnectOutcome.err (NetworkError.UnexpectedHandshake "Expected encrypt request"), []) := by
  rw [connect, read_buff_frame p rest hp]
  simp only [hm]
  simp [hk]

/-- C9 witness: a first frame carrying the channel encrypt result kind
is rejected before any write. -/
theorem c9_witness :
    (([25, 5, 0, 0] : List Nat).length < 2 ^ 32
      ∧ RawNetMessage.try_from [25, 5, 0, 0]
          = ParseResult.ok ⟨EMsg.k_EMsgChannelEncryptResult, false, []⟩
      ∧ (⟨EMsg.k_EMsgChannelEncryptResult, false, []⟩ : RawNetMessage).kind
          ≠ EMsg.k_EMsgChannelEncryptRequest)
    ∧ connect (fun _ => ⟨List.replicate 32 0, [1]⟩) (frameBytes [25, 5, 0, 0] ++ [])
        = (ConnectOutcome.err (NetworkError.UnexpectedHandshake "Expected encrypt request"), []) :=
  ⟨⟨by decide, by decide, by decide⟩,
    c9_wrong_kind_no_write (fun _ => ⟨List.replicate 32 0, [1]⟩) [25, 5, 0, 0] []
      ⟨EMsg.k_EMsgChannelEncryptResult, false, []⟩ (by decide) (by decide) (by decide)⟩

/-- C2: after decoding the ChannelEncryptResultBody the source never
branches on its result field: for every result code r (success or
not) and every session-key primitive, the handshake ends in the
unconditional abort, and in particular never returns an established
connection.  The claimed branch-and-return behaviour is absent. -/
theorem c2_result_never_returns_connection (genKey : List Nat → SessionKey) (r : Nat) :
    (connect genKey
        (frameBytes (i32ToLeBytes (EMsg.value EMsg.k_EMsgChannelEncryptRequest)
            ++ List.replicate 40 0)
          ++ frameBytes (i32ToLeBytes (EMsg.value EMsg.k_EMsgChannelEncryptResult)
            ++ (List.replicate 16 0 ++ u32ToLeBytes r)))).1
      = ConnectOutcome.panicked := by
  have hp1 : (i32ToLeBytes (EMsg.value EMsg.k_EMsgChannelEncryptRequest)
      ++ List.replicate 40 0).length < 2 ^ 32 := by
    rw [List.length_append, i32ToLeBytes_length, List.length_replicate]
    norm_num
  have ht1 : RawNetMessage.try_from (i32ToLeBytes (EMsg.value EMsg.k_EMsgChannelEncryptRequest)
      ++ List.replicate 40 0)
      = ParseResult.ok ⟨EMsg.k_EMsgChannelEncryptRequest, false, List.replicate 40 0⟩ := by
    decide
  have hdec1 : ChannelEncryptRequestBody.read_le (List.replicate 40 0)
      = some ⟨0, 0, 0, 0, List.replicate 16 0⟩ := by decide
  have hp2 : (i32ToLeBytes (EMsg.value EMsg.k_EMsgChannelEncryptResult)
      ++ (List.replicate 16 0 ++ u32ToLeBytes r)).length < 2 ^ 32 := by
    rw [List.length_append, i32ToLeBytes_length, List.length_append,
      List.length_replicate, u32ToLeBytes_length]
    norm_num
  have ht2 : RawNetMessage.try_from (i32ToLeBytes (EMsg.value EMsg.k_EMsgChannelEncryptResult)
      ++ (List.replicate 16 0 ++ u32ToLeBytes r))
      = ParseResult.ok ⟨EMsg.k_EMsgChannelEncryptResult, false,
          List.replicate 16 0 ++ u32ToLeBytes r⟩ := by
    rw [try_from_concat _ (by norm_num [EMsg.value]) (by norm_num [EMsg.value])]
    norm_num [EMsg.value, EMsg.from_i32]
  have hlen2 : (List.replicate 16 (0 : Nat) ++ u32ToLeBytes r).length = 20 := by
    rw [List.length_append, List.length_replicate, u32ToLeBytes_length]
  have hread2 : RawSteamReader.read_buff
      (frameBytes (i32ToLeBytes (EMsg.value EMsg.k_EMsgChannelEncryptResult)
        ++ (List.replicate 16 0 ++ u32ToLeBytes r)))
      = Except.ok (i32ToLeBytes (EMsg.value EMsg.k_EMsgChannelEncryptResult)
          ++ (List.replicate 16 0 ++ u32ToLeBytes r), []) := by
    have h := read_buff_frame _ [] hp2
    rwa [List.append_nil] at h
  rw [connect, read_buff_frame _ _ hp1]
  simp only [ht1, List.length_replicate, hdec1]
  simp only [awaitEncryptResult, hread2, ht2]
  simp [ChannelEncryptResultBody.read_le, hlen2, u32ToLeBytes_length]

/-- C6: for every well-formed 40-byte encrypt request body, connect
issues exactly one write of one frame followed by one flush, and the
frame payload is the ClientEncryptResponse encoding with both job ids
the all-ones u64 sentinel, the protocol echoed from the request, and
the u32 before the reserved word equal to the CRC-32/IEEE of the
encrypted key bytes alone. -/
theorem c6_handshake_response (genKey : List Nat → SessionKey) (body rest : List Nat)
    (req : ChannelEncryptRequestBody)
    (hlen : body.length = 40)
    (hdec : ChannelEncryptRequestBody.read_le body = some req) :
    (connect genKey
        (frameBytes (i32ToLeBytes (EMsg.value EMsg.k_EMsgChannelEncryptRequest) ++ body)
          ++ rest)).2
      = [WriteEvent.write (frameBytes (ClientEncryptResponse.encode
            ⟨2 ^ 64 - 1, 2 ^ 64 - 1, req.protocol, (genKey req.nonce).encrypted⟩)),
          WriteEvent.flush]
    ∧ ClientEncryptResponse.encode
          ⟨2 ^ 64 - 1, 2 ^ 64 - 1, req.protocol, (genKey req.nonce).encrypted⟩
        = i32ToLeBytes (EMsg.value EMsg.k_EMsgChannelEncryptResponse)
          ++ (u64ToLeBytes (2 ^ 64 - 1)
          ++ (u64ToLeBytes (2 ^ 64 - 1)
          ++ (u32ToLeBytes req.protocol
          ++ (u32ToLeBytes ((genKey req.nonce).encrypted.length % 2 ^ 32)
          ++ ((genKey req.nonce).encrypted
          ++ (u32ToLeBytes (crc32 (genKey req.nonce).encrypted)
          ++ u32ToLeBytes 0)))))) := by
  have hp : (i32ToLeBytes (EMsg.value EMsg.k_EMsgChannelEncryptRequest) ++ body).length
      < 2 ^ 32 := by
    rw [List.length_append, i32ToLeBytes_length, hlen]
    norm_num
  have ht1 : RawNetMessage.try_from
      (i32ToLeBytes (EMsg.value EMsg.k_EMsgChannelEncryptRequest) ++ body)
      = ParseResult.ok ⟨EMsg.k_EMsgChannelEncryptRequest, false, body⟩ := by
    rw [try_from_concat _ (by norm_num [EMsg.value]) (by norm_num [EMsg.value])]
    norm_num [EMsg.value, EMsg.from_i32]
  constructor
  · rw [connect, read_buff_frame _ _ hp]
    simp only [ht1, hlen, hdec]
    simp [RawSteamWriter.write_buff, awaitEncryptResult_snd]
  · rfl

/-- C6 witness at the all-zero 40-byte request body and a session key
whose encrypted form is [1, 2, 3]. -/
theorem c6_witness :
    (List.replicate 40 (0 : Nat)).length = 40
    ∧ ChannelEncryptRequestBody.read_le (List.replicate 40 0)
        = some ⟨0, 0, 0, 0, List.replicate 16 0⟩
    ∧ ((connect (fun _ => ⟨List.replicate 32 0, [1, 2, 3]⟩)
          (frameBytes (i32ToLeBytes (EMsg.value EMsg.k_EMsgChannelEncryptRequest)
              ++ List.replicate 40 0) ++ [])).2
        = [WriteEvent.write (frameBytes (ClientEncryptResponse.encode
              ⟨2 ^ 64 - 1, 2 ^ 64 - 1, 0, [1, 2, 3]⟩)),
            WriteEvent.flush]
      ∧ ClientEncryptResponse.encode ⟨2 ^ 64 - 1, 2 ^ 64 - 1, 0, [1, 2, 3]⟩
          = i32ToLeBytes (EMsg.value EMsg.k_EMsgChannelEncryptResponse)
            ++ (u64ToLeBytes (2 ^ 64 - 1)
            ++ (u64ToLeBytes (2 ^ 64 - 1)
            ++ (u32ToLeBytes 0
            ++ (u32ToLeBytes (([1, 2, 3] : List Nat).length % 2 ^ 32)
            ++ ([1, 2, 3]
            ++ (u32ToLeBytes (crc32 [1, 2, 3])
            ++ u32ToLeBytes 0))))))) :=
  ⟨by decide, by decide,
    c6_handshake_response (fun _ => ⟨List.replicate 32 0, [1, 2, 3]⟩)
      (List.replicate 40 0) [] ⟨0, 0, 0, 0, List.replicate 16 0⟩
      (by decide) (by decide)⟩
